import Mathlib

/-!
Shallow embedding of gsora/cryptostonksbot (main.go) in Lean 4.

The bot relays cryptocurrency market data from the CoinGecko API to
Telegram.  The embedding covers the components the verified claims are
about: the symbol-to-identifier cache (loadCoinIDs / idMap), the price
query path (lookupPrice), the historical what-if computation (ifIBought),
message formatting (templateData.format / queryMessage), the /whatif
command handler and the decorative-sticker trigger (doIt).

Go float64 prices are modelled as rationals; every claim involves only
values on which float64 arithmetic is exact.  The external collaborators
(the go-gecko client methods CoinsList, CoinsMarket, CoinsIDHistory) are
modelled as a record of response functions, with the known API quirk of
JSON-encoded error texts made explicit as an outcome constructor.
-/

section RatReducible

attribute [local semireducible] Rat.mul Rat.add Rat.sub Rat.inv

namespace CryptoStonks

/-- ASCII lowercasing of one character; models Go strings.ToLower on the
ASCII range exercised by the program (ticker and currency codes). -/
def lowerChar (c : Char) : Char :=
  if 'A' ≤ c ∧ c ≤ 'Z' then Char.ofNat (c.toNat + 32) else c

/-- ASCII uppercasing of one character; models Go strings.ToUpper on the
ASCII range exercised by the program. -/
def upperChar (c : Char) : Char :=
  if 'a' ≤ c ∧ c ≤ 'z' then Char.ofNat (c.toNat - 32) else c

/-- Models Go strings.ToLower (ASCII range). -/
def strToLower (s : String) : String := String.mk (s.data.map lowerChar)

/-- Models Go strings.ToUpper (ASCII range). -/
def strToUpper (s : String) : String := String.mk (s.data.map upperChar)

/-- Whitespace test used by Go strings.Fields (ASCII whitespace). -/
def isSpaceChar (c : Char) : Bool :=
  c = ' ' || c = '\t' || c = '\n' || c = '\r' || c = '\x0b' || c = '\x0c'

/-- Accumulator pass behind strings.Fields: splits around runs of
whitespace, dropping empty fields.  The second argument holds the
characters of the current field, reversed. -/
def fieldsAux : List Char → List Char → List String
  | [], acc => if acc.isEmpty then [] else [String.mk acc.reverse]
  | c :: rest, acc =>
    if isSpaceChar c then
      if acc.isEmpty then fieldsAux rest []
      else String.mk acc.reverse :: fieldsAux rest []
    else fieldsAux rest (c :: acc)

/-- Models Go strings.Fields. -/
def fields (s : String) : List String := fieldsAux s.data []

/-- Decimal digits to a natural number (most significant first). -/
def digitsToNat (l : List Char) : Nat :=
  l.foldl (fun a c => a * 10 + (c.toNat - 48)) 0

/-- A non-empty all-digit run parsed as a natural number. -/
def parseDigits (l : List Char) : Option Nat :=
  if l.isEmpty then none
  else if l.all Char.isDigit then some (digitsToNat l) else none

/-- Models Go strconv.Atoi: optional sign followed by decimal digits.
The int64 range check is not modelled; every claim uses small values. -/
def parseInt (s : String) : Option Int :=
  match s.data with
  | '-' :: rest => (parseDigits rest).map (fun n => -(n : Int))
  | '+' :: rest => (parseDigits rest).map (fun n => (n : Int))
  | l => (parseDigits l).map (fun n => (n : Int))

/-- Models Go strconv.ParseFloat on its plain decimal subset (optional
sign, integer digits, optional fraction); exponents, hex floats, Inf and
NaN are not modelled.  Every accepted input parses in Go to the same
(exactly representable) value. -/
def parseFloatQ (s : String) : Option Rat :=
  let signed : Rat × List Char :=
    match s.data with
    | '-' :: rest => (-1, rest)
    | '+' :: rest => (1, rest)
    | l => (1, l)
  let sgn := signed.1
  let l := signed.2
  let intPart := l.takeWhile Char.isDigit
  match l.dropWhile Char.isDigit with
  | [] => if intPart.isEmpty then none else some (sgn * (digitsToNat intPart : Rat))
  | '.' :: frac =>
    if frac.all Char.isDigit ∧ ¬(intPart.isEmpty ∧ frac.isEmpty) then
      some (sgn * ((digitsToNat intPart : Rat) +
        (digitsToNat frac : Rat) / (10 : Rat) ^ frac.length))
    else none
  | _ => none

/-- Floor of a non-negative rational as a natural number. -/
def ratFloorNonneg (q : Rat) : Nat := q.num.toNat / q.den

/-- Inserts a thousands separator after every three digits, taking the
digit list reversed (least significant first). -/
def groupRev : List Char → List Char
  | a :: b :: c :: d :: rest => a :: b :: c :: ',' :: groupRev (d :: rest)
  | l => l

/-- Thousands grouping of a decimal digit string. -/
def groupDigits (s : String) : String :=
  String.mk (groupRev s.data.reverse).reverse

/-- Two-digit zero-padded rendering of a number below 100. -/
def padLeft2 (n : Nat) : String :=
  if n < 10 then "0" ++ toString n else toString n

/-- Models the number rendering of the accounting library used by the
program (precision 2, comma thousands separator, dot decimal separator —
the separators the program's USD locale and the library's defaults both
use).  Rounding is half-up; every claim uses values exact at two
decimals, where Go's rendering agrees. -/
def formatNumber2 (q : Rat) : String :=
  let qa := if q < 0 then -q else q
  let n := ratFloorNonneg (qa * 100 + 1 / 2)
  (if q < 0 then "-" else "") ++
    groupDigits (toString (n / 100)) ++ "." ++ padLeft2 (n % 100)

/-- The accounting library's ComSymbol for a currency code; modelled for
the entries the program exercises (USD), with the library's zero-value
default (empty symbol) for unknown codes. -/
def localeSymbol (currency : String) : String :=
  if currency = "USD" then "$" else ""

/-- Money rendering with the USD accounting instance built in the /whatif
handler (Symbol dollar, Precision 2): models a.FormatMoneyFloat64 and,
on integral arguments, a.FormatMoneyInt. -/
def usdMoney (q : Rat) : String := "$" ++ formatNumber2 q

/-! ## Data model: the go-gecko response types used by the program -/

/-- One entry of the CoinsList response (types.CoinItem): the provider's
identifier slug, ticker symbol as delivered, and display name. -/
structure CoinListItem where
  id : String
  symbol : String
  name : String
deriving DecidableEq

/-- The fields of types.CoinsMarketItem that the program reads.  Prices
are Go float64 values, modelled as rationals. -/
structure CoinsMarketItem where
  name : String
  symbol : String
  currentPrice : Rat
  priceChange24h : Rat
  priceChangePercentage24h : Rat
  marketCap : Rat
  marketCapChangePercentage24h : Rat
  high24 : Rat
  low24 : Rat
  ath : Rat
  athDate : String
deriving DecidableEq

/-- The market-data section of a CoinsIDHistory response: a currency-code
to price mapping (types.MarketDataItem.CurrentPrice). -/
structure MarketDataItem where
  currentPrice : List (String × Rat)
deriving DecidableEq

/-- A CoinsIDHistory response record (types.CoinsIDHistory); MarketData
is a nullable pointer in Go, hence an Option. -/
structure CoinsIDData where
  marketData : Option MarketDataItem
deriving DecidableEq

/-- Outcome of a gc.CoinsMarket call.  lookupPrice feeds a failing
call's error text to json.Unmarshal into the cgErr struct (whose single
field is tagged "error"); that boundary is made explicit here:
errParsed v is an error whose text is a JSON object unmarshalling to
cgErr with Value v, errUnparsed t is an error whose text t does not
unmarshal. -/
inductive MarketOutcome where
  | ok (items : List CoinsMarketItem)
  | errParsed (v : String)
  | errUnparsed (t : String)
deriving DecidableEq

/-- Outcome of a gc.CoinsIDHistory call.  errDeadline is an error for
which errors.Is(err, context.DeadlineExceeded) holds; errOther is any
other error. -/
inductive HistoryOutcome where
  | ok (data : CoinsIDData)
  | errDeadline
  | errOther (t : String)
deriving DecidableEq

/-- The external go-gecko client, modelled as its responses: CoinsList,
CoinsMarket (keyed by currency and asset id; the fixed paging/order
arguments of the call do not vary) and CoinsIDHistory (keyed by asset id
and date string). -/
structure GeckoClient where
  coinsList : Except String (List CoinListItem)
  coinsMarket : String → String → MarketOutcome
  coinsIDHistory : String → String → HistoryOutcome

/-! ## Identifier cache (coinQuerier.idMap / loadCoinIDs) -/

/-- The symbol-to-identifier map held by coinQuerier.idMap. -/
def IdMap := String → Option String

/-- The empty Go map a refresh starts from (nim := make(map[string]string)). -/
def emptyMap : IdMap := fun _ => none

/-- One Go map assignment, nim[k] = v. -/
def mapSet (m : IdMap) (k v : String) : IdMap :=
  fun s => if s = k then some v else m s

/-- The map built by the refresh loop: for _, e := range *l with
nim[e.Symbol] = e.ID — symbols are stored exactly as delivered, and a
later entry overwrites an earlier one with the same symbol. -/
def buildIdMap (l : List CoinListItem) : IdMap :=
  l.foldl (fun m e => mapSet m e.symbol e.id) emptyMap

/-- coinQuerier.loadCoinIDs: fetches the asset list and swaps in a fresh
map; on fetch failure returns the error with the map untouched.  The
mutex only serializes access and has no value-level content; the state
is passed explicitly. -/
def loadCoinIDs (gc : GeckoClient) (idMap : IdMap) : Except String Unit × IdMap :=
  match gc.coinsList with
  | .error e => (.error e, idMap)
  | .ok l => (.ok (), buildIdMap l)

/-! ## Price query path (coinQuerier.lookupPrice) -/

/-- The error-handling tail of lookupPrice after the CoinsMarket call:
a failing call's error text is unmarshalled into cgErr (errUnparsed
surfaces the original error); the sentinel value "invalid vs_currency"
becomes the unsupported-currency error naming the upper-cased currency;
any other parsed value is returned as the cgErr itself (whose Error()
text is that value); an empty result set is "no results found"; else
the first item is returned. -/
def marketOutcomeToResult (currency : String) (o : MarketOutcome) :
    Except String CoinsMarketItem :=
  match o with
  | .errUnparsed t => .error t
  | .errParsed v =>
    if v = "invalid vs_currency" then .error (strToUpper currency ++ " not supported")
    else .error v
  | .ok items =>
    match items with
    | [] => .error "no results found"
    | x :: _ => .ok x

/-- coinQuerier.lookupPrice: resolves the lower-cased token in the id
map ("token not supported" when absent), then performs the CoinsMarket
call and applies the error handling above. -/
def lookupPrice (gc : GeckoClient) (m : IdMap) (token currency : String) :
    Except String CoinsMarketItem :=
  match m (strToLower token) with
  | none => .error (token ++ " not supported")
  | some id => marketOutcomeToResult currency (gc.coinsMarket currency id)

/-! ## Historical what-if computation (coinQuerier.ifIBought) -/

/-- The month substitution at the top of ifIBought: if month <= 0 ||
month > 12 the current calendar month (time.Now().Month(), passed in
explicitly as now) is used. -/
def resolveMonth (month now : Int) : Int :=
  if month ≤ 0 || month > 12 then now else month

/-- The history date string fmt.Sprintf("15-%d-%d", month, year). -/
def histDate (month year : Int) : String :=
  "15-" ++ toString month ++ "-" ++ toString year

/-- coinQuerier.ifIBought: lower-cases the currency, resolves the token,
fetches historical data for day 15 of the resolved month/year, reads the
historical price for the currency, fetches the current price through
lookupPrice, and returns (amount / oldPrice, that * current price,
oldPrice).  Error cases follow the source: deadline-exceeded becomes the
API-unavailable message, any other history error "token not supported",
a record without market data "No data available for year y", a missing
currency key "currency not supported". -/
def ifIBought (gc : GeckoClient) (m : IdMap) (token currency0 : String)
    (year month0 now : Int) (amount : Rat) : Except String (Rat × Rat × Rat) :=
  let currency := strToLower currency0
  match m (strToLower token) with
  | none => .error (token ++ " not supported")
  | some id =>
    match gc.coinsIDHistory id (histDate (resolveMonth month0 now) year) with
    | .errDeadline => .error "CoinGecko API connection failed 🤕"
    | .errOther _ => .error (token ++ " not supported")
    | .ok data =>
      match data.marketData with
      | none => .error ("No data available for year " ++ toString year)
      | some md =>
        match List.lookup currency md.currentPrice with
        | none => .error (currency ++ " not supported")
        | some oldPrice =>
          match lookupPrice gc m token currency with
          | .error e => .error e
          | .ok newData =>
            .ok (amount / oldPrice, amount / oldPrice * newData.currentPrice, oldPrice)

/-! ## Message formatting (templateData.format / queryMessage) -/

/-- Zone suffix of an RFC3339 timestamp: the literal Z or a signed
hh:mm offset. -/
def parseZone : List Char → Bool
  | ['Z'] => true
  | [sgn, h1, h2, ':', m1, m2] =>
    (sgn = '+' || sgn = '-') && [h1, h2, m1, m2].all Char.isDigit &&
      digitsToNat [h1, h2] ≤ 23 && digitsToNat [m1, m2] ≤ 59
  | _ => false

/-- Optional fractional seconds followed by the zone suffix. -/
def parseFracZone (l : List Char) : Bool :=
  match l with
  | '.' :: rest =>
    !(rest.takeWhile Char.isDigit).isEmpty && parseZone (rest.dropWhile Char.isDigit)
  | _ => parseZone l

/-- Models Go time.Parse(time.RFC3339, s), returning the calendar date
(year, month, day) on success: the shape YYYY-MM-DDTHH:MM:SS with
optional fractional seconds and a Z or signed hh:mm zone.  Day-of-month
validation is simplified to the range 1-31 (Go checks per-month
lengths); every input any claim evaluates is treated identically by
both. -/
def parseRFC3339 (s : String) : Option (Nat × Nat × Nat) :=
  match s.data with
  | y1 :: y2 :: y3 :: y4 :: '-' :: m1 :: m2 :: '-' :: d1 :: d2 :: 'T' ::
      h1 :: h2 :: ':' :: n1 :: n2 :: ':' :: s1 :: s2 :: rest =>
    if [y1, y2, y3, y4, m1, m2, d1, d2, h1, h2, n1, n2, s1, s2].all Char.isDigit then
      let mo := digitsToNat [m1, m2]
      let dy := digitsToNat [d1, d2]
      if 1 ≤ mo && mo ≤ 12 && 1 ≤ dy && dy ≤ 31 &&
          digitsToNat [h1, h2] ≤ 23 && digitsToNat [n1, n2] ≤ 59 &&
          digitsToNat [s1, s2] ≤ 59 && parseFracZone rest then
        some (digitsToNat [y1, y2, y3, y4], mo, dy)
      else none
    else none
  | _ => none

/-- English month name, as rendered by the goment "MMMM" token. -/
def monthName : Nat → String
  | 1 => "January"
  | 2 => "February"
  | 3 => "March"
  | 4 => "April"
  | 5 => "May"
  | 6 => "June"
  | 7 => "July"
  | 8 => "August"
  | 9 => "September"
  | 10 => "October"
  | 11 => "November"
  | 12 => "December"
  | _ => ""

/-- The goment Format("D MMMM YYYY") rendering of a calendar date. -/
def gomentDMY (d : Nat × Nat × Nat) : String :=
  toString d.2.2 ++ " " ++ monthName d.2.1 ++ " " ++ toString d.1

/-- The string fields templateData carries after format has run, plus
the embedded 24h price change driving both sentiment emojis. -/
structure TemplateData where
  name : String
  symbol : String
  price : String
  priceChangePercent : String
  marketCap : String
  marketCapPercent : String
  high24 : String
  low24 : String
  ath : String
  athDate : String
  priceChange24h : Rat
deriving DecidableEq

/-- Fixed-point rendering with two decimals, as fmt.Sprintf("%.2f")
produces for the values the program formats (rounding modelled half-up;
exact at every value a claim evaluates). -/
def formatFixed2 (q : Rat) : String :=
  let qa := if q < 0 then -q else q
  let n := ratFloorNonneg (qa * 100 + 1 / 2)
  (if q < 0 then "-" else "") ++ toString (n / 100) ++ "." ++ padLeft2 (n % 100)

/-- The message a panic escaping templateData.format produces: format
calls panic(err) when the snapshot's all-time-high date string does not
parse as RFC3339, aborting the handling goroutine and the process. -/
def athPanicMsg : String := "panic: ATH date does not parse as RFC3339"

/-- templateData.format: renders every monetary and percentage field
(accounting locale of the upper-cased currency; dollar-glyph prefix
hardwired onto the upper-cased ticker symbol) and the ATH date via
goment.  The time.Parse(time.RFC3339, ...) failure path calls
panic(err), modelled as the error branch of the result; goment.New on a
Go time.Time value never fails. -/
def formatTemplate (p : CoinsMarketItem) (currency : String) :
    Except String TemplateData :=
  let sym := localeSymbol (strToUpper currency)
  let money := fun q => sym ++ formatNumber2 q
  match parseRFC3339 p.athDate with
  | none => .error athPanicMsg
  | some d =>
    .ok
      { name := p.name
        symbol := "$" ++ strToUpper p.symbol
        price := money p.currentPrice
        priceChangePercent := formatFixed2 p.priceChangePercentage24h ++ "%"
        marketCap := money p.marketCap
        marketCapPercent := formatFixed2 p.marketCapChangePercentage24h ++ "%"
        high24 := money p.high24
        low24 := money p.low24
        ath := money p.ath
        athDate := gomentDMY d
        priceChange24h := p.priceChange24h }

/-- templateData.PriceEmoji: driven by the 24h price change amount. -/
def priceEmoji (t : TemplateData) : String :=
  if t.priceChange24h > 0 then "🤑" else "🤮"

/-- templateData.MarketCapEmoji: also driven by the 24h price change
amount (the latent inconsistency in the source, preserved). -/
def marketCapEmoji (t : TemplateData) : String :=
  if t.priceChange24h > 0 then "🤑" else "🤮"

/-- The coinInfoFmt template instantiated at a templateData value.  The
template is a program constant, so template.New(...).Parse always
succeeds, and execution over templateData (all referenced fields and
methods exist) always succeeds: the two "Cannot query CoinGecko API"
fallback branches of queryMessage are unreachable, and the rendering is
the direct field interpolation. -/
def renderCoinInfo (t : TemplateData) : String :=
  t.name ++ " (" ++ t.symbol ++ ")\n\nPrice: " ++ t.price ++ " (" ++
    t.priceChangePercent ++ " " ++ priceEmoji t ++ ")\nMarket cap: " ++
    t.marketCap ++ "(" ++ t.marketCapPercent ++ " " ++ marketCapEmoji t ++
    ")\nATH: " ++ t.ath ++ " (" ++ t.athDate ++ ") 🌝\nLast 24H high: " ++
    t.high24 ++ "\nLast 24H low: " ++ t.low24 ++ "\n"

/-- coinQuerier.queryMessage: a lookup failure is answered with the
error's text; otherwise the snapshot is formatted and rendered.  The ok
branch is the string sent to the chat; the error branch is a panic
escaping templateData.format, which aborts instead of replying. -/
def queryMessage (gc : GeckoClient) (m : IdMap) (ticker fiatCurrency : String) :
    Except String String :=
  match lookupPrice gc m ticker fiatCurrency with
  | .error e => .ok e
  | .ok p =>
    match formatTemplate p fiatCurrency with
    | .error panicMsg => .error panicMsg
    | .ok t => .ok (renderCoinInfo t)

/-! ## The /whatif handler -/

/-- The reply sentence fmt.Sprintf(ifIHadFmt, ...) with ifIHadFmt =
"%s worth of %s in %d (priced at %s) are now worth %s" followed by the
scream emoji. -/
def ifIHadMsg (amt tok : String) (year : Int) (oldPrice newValue : String) : String :=
  amt ++ " worth of " ++ tok ++ " in " ++ toString year ++ " (priced at " ++
    oldPrice ++ ") are now worth " ++ newValue ++ " 😱"

/-- The month block of the /whatif handler (var month int; if len(f) ==
4 then mm, err := strconv.Atoi(f[2]) ...): the token re-parsed is f[2] —
the year token, not the fourth argument f[3].  On a parse failure the
handler sends "Malformed month" but does not return, and month keeps
Go's zero value for the failed Atoi.  Returns the messages sent by the
block together with the month value it leaves behind. -/
def whatifMonth (f : List String) : List String × Int :=
  if f.length = 4 then
    match parseInt (f.getD 2 "") with
    | none => (["Malformed month"], 0)
    | some mm => ([], mm)
  else ([], 0)

/-- The body of the /whatif handler after f := strings.Fields(m.Text)[1:],
returning the list of messages sent to the chat in order: the usage
message for fewer than three arguments; "Malformed amount" / "Malformed
year" on parse failures; then any month-block message followed by either
the error text of ifIBought or the result sentence — whose first verb is
the formatted constant 500 (a.FormatMoneyInt(500)), not the parsed
amount. -/
def whatifReplies (gc : GeckoClient) (m : IdMap) (now : Int) (f : List String) :
    List String :=
  if f.length < 3 then ["Syntax: /whatif amount token year [month number]"]
  else
    match parseFloatQ (f.getD 0 "") with
    | none => ["Malformed amount"]
    | some amount =>
      let token := f.getD 1 ""
      match parseInt (f.getD 2 "") with
      | none => ["Malformed year"]
      | some year =>
        let pre := (whatifMonth f).1
        let month := (whatifMonth f).2
        pre ++
          match ifIBought gc m token "USD" year month now amount with
          | .error e => [e]
          | .ok (_, newValue, oldPrice) =>
            [ifIHadMsg (usdMoney 500) (strToUpper token) year
              (usdMoney oldPrice) (usdMoney newValue)]

/-- The /whatif handler on the raw message text: strings.Fields, drop
the command token, then the body above. -/
def whatifHandler (gc : GeckoClient) (m : IdMap) (now : Int) (text : String) :
    List String :=
  whatifReplies gc m now ((fields text).drop 1)

/-! ## Sticker trigger (doIt) -/

/-- doIt: reads a big-endian uint64 from crypto/rand (none models a read
error, some v the value read, with v ranging over the 2^64 possible
64-bit values) and reports whether v is divisible by both 5 and 3. -/
def doIt (read : Option Nat) : Bool :=
  match read with
  | none => false
  | some v => if v % 5 = 0 ∧ v % 3 = 0 then true else false

end CryptoStonks

namespace CryptoStonks

-- Concrete evaluations of the embedded string and parsing helpers.
example : strToUpper "eth" = "ETH" := by decide
example : strToLower "ETH" = "eth" := by decide
example : fields "/whatif 100 eth 2018" = ["/whatif", "100", "eth", "2018"] := by decide
example : parseInt "2018" = some 2018 := by decide
example : parseFloatQ "100" = some 100 := by decide
example : ((100 : Rat) / 200) = 1 / 2 := by decide
example : usdMoney 500 = "$500.00" := by decide
example : usdMoney 1000 = "$1,000.00" := by decide
example : histDate (resolveMonth 0 7) 2018 = "15-7-2018" := by decide
example : buildIdMap [⟨"ethereum", "eth", "Ethereum"⟩] "eth" = some "ethereum" := by decide

/-! ## Concrete fixtures for witnesses and counterexamples -/

/-- A market snapshot for the spec's what-if scenario: current price
2000 (USD), with a well-formed ATH date. -/
def ethItem : CoinsMarketItem :=
  { name := "Ethereum"
    symbol := "eth"
    currentPrice := 2000
    priceChange24h := 1
    priceChangePercentage24h := 2
    marketCap := 100000
    marketCapChangePercentage24h := 3
    high24 := 2100
    low24 := 1900
    ath := 4800
    athDate := "2021-11-10T14:24:11.849Z" }

/-- Identifier cache freshly loaded from a one-entry asset list. -/
def imEx : IdMap := buildIdMap [⟨"ethereum", "eth", "Ethereum"⟩]

/-- Collaborator for the spec scenario: historical price 200 USD on
15-7-2018, current snapshot ethItem. -/
def gcEx : GeckoClient :=
  { coinsList := .ok [⟨"ethereum", "eth", "Ethereum"⟩]
    coinsMarket := fun cur id =>
      if cur = "usd" && id = "ethereum" then .ok [ethItem] else .errUnparsed "http error"
    coinsIDHistory := fun id ds =>
      if id = "ethereum" && ds = "15-7-2018" then
        .ok ⟨some ⟨[("usd", 200)]⟩⟩
      else .errOther "history fetch failed" }

example : lookupPrice gcEx imEx "ETH" "usd" = .ok ethItem := rfl
example :
    ifIBought gcEx imEx "ETH" "USD" 2018 0 7 100 = .ok (1 / 2, 1000, 200) := rfl
example :
    whatifHandler gcEx imEx 7 "/whatif 100 eth 2018" =
      ["$500.00 worth of ETH in 2018 (priced at $200.00) are now worth $1,000.00 😱"] := by
  decide
example : parseRFC3339 "2021-11-10T14:24:11.849Z" = some (2021, 11, 10) := by decide
example : parseRFC3339 "" = none := by decide

/-- Collaborator answering history only for the date the claimed month
argument (June 2018) would produce. -/
def gcJune : GeckoClient :=
  { coinsList := .ok [⟨"ethereum", "eth", "Ethereum"⟩]
    coinsMarket := fun cur id =>
      if cur = "usd" && id = "ethereum" then .ok [ethItem] else .errUnparsed "http error"
    coinsIDHistory := fun id ds =>
      if id = "ethereum" && ds = "15-6-2018" then
        .ok ⟨some ⟨[("usd", 200)]⟩⟩
      else .errOther "history fetch failed" }

/-- Collaborator whose asset-list fetch fails. -/
def gcFail : GeckoClient :=
  { coinsList := .error "network unreachable"
    coinsMarket := fun _ _ => .errUnparsed "unused"
    coinsIDHistory := fun _ _ => .errOther "unused" }

/-- Collaborator rejecting the requested currency with the structured
invalid vs_currency error payload. -/
def gcBadCur : GeckoClient :=
  { coinsList := .ok [⟨"ethereum", "eth", "Ethereum"⟩]
    coinsMarket := fun _ _ => .errParsed "invalid vs_currency"
    coinsIDHistory := fun _ _ => .errOther "unused" }

/-- Collaborator whose history call times out (deadline exceeded). -/
def gcDeadline : GeckoClient :=
  { coinsList := .ok [⟨"ethereum", "eth", "Ethereum"⟩]
    coinsMarket := fun _ _ => .errUnparsed "unused"
    coinsIDHistory := fun _ _ => .errDeadline }

/-- A market snapshot whose all-time-high date string is not RFC3339. -/
def ethItemBadDate : CoinsMarketItem := { ethItem with athDate := "yesterday" }

/-- Collaborator serving the snapshot with the unparseable ATH date. -/
def gcBadDate : GeckoClient :=
  { coinsList := .ok [⟨"ethereum", "eth", "Ethereum"⟩]
    coinsMarket := fun _ _ => .ok [ethItemBadDate]
    coinsIDHistory := fun _ _ => .errOther "unused" }
example :
    queryMessage gcEx imEx "eth" "usd" =
      .ok ("Ethereum ($ETH)\n\nPrice: $2,000.00 (2.00% 🤑)\nMarket cap: $100,000.00(3.00% 🤑)\nATH: $4,800.00 (10 November 2021) 🌝\nLast 24H high: $2,100.00\nLast 24H low: $1,900.00\n") := rfl

/-! ## Helper lemmas -/

/-- Folding Go map assignments over a list, read back at a symbol: the
id of the last matching entry, else the starting map's value. -/
lemma buildIdMapFrom (l : List CoinListItem) (m : IdMap) (s : String) :
    (l.foldl (fun m e => mapSet m e.symbol e.id) m) s =
      match l.reverse.find? (fun e => e.symbol == s) with
      | some e => some e.id
      | none => m s := by
  induction l generalizing m with
  | nil => simp
  | cons a t ih =>
    simp only [List.foldl_cons, List.reverse_cons, List.find?_append, ih]
    cases hf : t.reverse.find? (fun e => e.symbol == s) with
    | some e => simp
    | none =>
      by_cases h : a.symbol = s
      · simp [mapSet, List.find?, h, eq_comm]
      · have hb : (a.symbol == s) = false := by simp [h]
        simp [mapSet, List.find?, hb, Ne.symm h]

/-- buildIdMap realizes last-entry-wins lookup. -/
lemma buildIdMap_eq_find (l : List CoinListItem) (s : String) :
    buildIdMap l s = (l.reverse.find? (fun e => e.symbol == s)).map (fun e => e.id) := by
  unfold buildIdMap
  rw [buildIdMapFrom]
  cases l.reverse.find? (fun e => e.symbol == s) <;> simp [emptyMap]

/-- The trigger fires exactly on multiples of 15. -/
lemma doIt_some_iff (v : Nat) : doIt (some v) = true ↔ v % 15 = 0 := by
  unfold doIt
  by_cases h : v % 5 = 0 ∧ v % 3 = 0 <;> simp [h] <;> omega

/-- Count of multiples of 15 below N. -/
lemma filter_mod15_card (N : Nat) :
    ((Finset.range N).filter (fun v => v % 15 = 0)).card = (N + 14) / 15 := by
  have himg : (Finset.range N).filter (fun v => v % 15 = 0) =
      (Finset.range ((N + 14) / 15)).image (fun m => 15 * m) := by
    ext v
    simp only [Finset.mem_filter, Finset.mem_range, Finset.mem_image]
    constructor
    · rintro ⟨hv, hm⟩
      exact ⟨v / 15, by omega, by omega⟩
    · rintro ⟨m, hm, rfl⟩
      omega
  rw [himg, Finset.card_image_of_injective _ (mul_right_injective₀ (by norm_num)),
    Finset.card_range]

/-- Count of 64-bit values on which the trigger fires. -/
lemma doIt_card :
    ((Finset.range (2 ^ 64)).filter (fun v => doIt (some v) = true)).card =
      1229782938247303442 := by
  have hf : (Finset.range (2 ^ 64)).filter (fun v => doIt (some v) = true) =
      (Finset.range (2 ^ 64)).filter (fun v => v % 15 = 0) :=
    Finset.filter_congr (fun x _ => by rw [doIt_some_iff])
  rw [hf, filter_mod15_card]
  decide

/-! ## Claim theorems -/

/-- C1: the claim says the single /whatif reply embeds the user-supplied
amount (the first argument); the code instead formats the hardwired
constant 500 (a.FormatMoneyInt(500)) into the amount slot.  Evaluated at
/whatif 100 eth 2018 against the spec scenario collaborator (historical
price 200, current price 2000): the single reply carries the upper-cased
ticker, the year, the formatted historical price and the formatted
current value, but opens with the formatted 500 — the amount 100 appears
nowhere in it. -/
theorem whatif_reply_embeds_constant_500 :
    whatifHandler gcEx imEx 7 "/whatif 100 eth 2018" =
      [ifIHadMsg (usdMoney 500) (strToUpper "eth") 2018 (usdMoney 200) (usdMoney 1000)] ∧
    ifIHadMsg (usdMoney 500) (strToUpper "eth") 2018 (usdMoney 200) (usdMoney 1000) =
      "$500.00 worth of ETH in 2018 (priced at $200.00) are now worth $1,000.00 😱" :=
  ⟨rfl, rfl⟩

/-- C2: the claim says that with exactly four arguments the month passed
to the what-if computation is the fourth token; the code re-parses the
third token f[2] (the year).  On arguments 100 eth 2018 6 the month
block yields 2018, not 6; run with current month 7 against a
collaborator that answers history only for 15-6-2018 (the date month 6
would produce), the handler fails with the unsupported-asset fallback,
because it queried 15-7-2018 (2018 is outside 1..12, so the current
month is substituted). -/
theorem whatif_month_parsed_from_year_token :
    whatifMonth ["100", "eth", "2018", "6"] = ([], 2018) ∧
    whatifHandler gcJune imEx 7 "/whatif 100 eth 2018 6" = ["eth not supported"] :=
  ⟨rfl, rfl⟩

/-- C3: every successful what-if result satisfies units = amount /
historical price and currentValue = units * current price, where the
historical price is the one recorded for the (lower-cased) requested
currency on day 15 of the resolved month/year and the current price
comes from the lookupPrice resolution path. -/
theorem ifIBought_value_equations (gc : GeckoClient) (im : IdMap) (tok cur : String)
    (yr mo now : Int) (amt u cv hp : Rat)
    (h : ifIBought gc im tok cur yr mo now amt = .ok (u, cv, hp)) :
    u = amt / hp ∧
    (∃ item, lookupPrice gc im tok (strToLower cur) = .ok item ∧
      cv = u * item.currentPrice) ∧
    (∃ id data md, im (strToLower tok) = some id ∧
      gc.coinsIDHistory id (histDate (resolveMonth mo now) yr) = .ok data ∧
      data.marketData = some md ∧
      List.lookup (strToLower cur) md.currentPrice = some hp) := by
  simp only [ifIBought] at h
  split at h
  · exact absurd h (by simp)
  · rename_i id hid
    split at h
    · exact absurd h (by simp)
    · exact absurd h (by simp)
    · rename_i data hdata
      split at h
      · exact absurd h (by simp)
      · rename_i md hmd
        split at h
        · exact absurd h (by simp)
        · rename_i oldPrice hold
          split at h
          · exact absurd h (by simp)
          · rename_i newData hnew
            simp only [Except.ok.injEq, Prod.mk.injEq] at h
            obtain ⟨h1, h2, h3⟩ := h
            subst h3
            refine ⟨h1.symm, ⟨newData, hnew, by rw [← h1, ← h2]⟩,
              ⟨id, data, md, hid, hdata, hmd, hold⟩⟩

/-- C3 witness: the spec scenario /whatif 100 ETH 2018 with the cache
mapping eth to ethereum, historical price 200 and current price 2000
gives units 1/2 and current value 1000. -/
theorem ifIBought_value_equations_witness :
    (1 / 2 : Rat) = 100 / 200 ∧
    (∃ item, lookupPrice gcEx imEx "ETH" (strToLower "USD") = .ok item ∧
      (1000 : Rat) = 1 / 2 * item.currentPrice) ∧
    (∃ id data md, imEx (strToLower "ETH") = some id ∧
      gcEx.coinsIDHistory id (histDate (resolveMonth 0 7) 2018) = .ok data ∧
      data.marketData = some md ∧
      List.lookup (strToLower "USD") md.currentPrice = some 200) :=
  ifIBought_value_equations gcEx imEx "ETH" "USD" 2018 0 7 100 (1 / 2) 1000 200 rfl

/-- C4: when the asset-list fetch fails, loadCoinIDs returns that error
and leaves the symbol-to-identifier mapping exactly as it was, so every
subsequent lookup behaves as before the failed refresh. -/
theorem loadCoinIDs_failure_atomic (gc : GeckoClient) (im : IdMap) (e : String)
    (h : gc.coinsList = .error e) :
    loadCoinIDs gc im = (.error e, im) ∧
    (∀ gc2 tok cur, lookupPrice gc2 (loadCoinIDs gc im).2 tok cur =
      lookupPrice gc2 im tok cur) := by
  have h1 : loadCoinIDs gc im = (.error e, im) := by
    unfold loadCoinIDs
    rw [h]
  exact ⟨h1, fun gc2 tok cur => by rw [h1]⟩

/-- C4 witness: a concrete failing fetch leaves the loaded cache intact
and lookups against it unchanged. -/
theorem loadCoinIDs_failure_atomic_witness :
    loadCoinIDs gcFail imEx = (.error "network unreachable", imEx) ∧
    lookupPrice gcEx (loadCoinIDs gcFail imEx).2 "ETH" "usd" =
      lookupPrice gcEx imEx "ETH" "usd" := by
  have h := loadCoinIDs_failure_atomic gcFail imEx "network unreachable" rfl
  exact ⟨h.1, h.2 gcEx "ETH" "usd"⟩

/-- C5 counterexample: a freshly fetched list may carry an upper-case
symbol; the refresh stores it as delivered, so the map holds BTC while
lookup of lowercase(BTC) = btc lower-cases again, misses the map and
reports not-supported — refuting "for every symbol s present in the
freshly loaded map, lookup(lowercase(s)) returns the mapped
identifier". -/
theorem idmap_lowercase_lookup_cex :
    buildIdMap [⟨"bitcoin", "BTC", "Bitcoin"⟩] "BTC" = some "bitcoin" ∧
    lookupPrice gcEx (buildIdMap [⟨"bitcoin", "BTC", "Bitcoin"⟩]) "btc" "usd" =
      .error "btc not supported" :=
  ⟨rfl, rfl⟩

/-- C5 (amended): after a successful refresh the cache maps each symbol,
stored exactly as delivered, to the ID of its last occurrence in the
fetched list (last entry wins); lookup lower-cases its argument and
consults the map as stored, so every token whose lowercasing is a key
resolves to that key's identifier (in particular any all-lowercase
stored symbol is found under its own spelling), while every token whose
lowercasing is absent — including the lowercasing of a stored symbol
that contains upper-case letters — yields the not-found error. -/
theorem buildIdMap_lastwins_lookup (l : List CoinListItem) (gc : GeckoClient)
    (tok cur : String) :
    buildIdMap l tok = (l.reverse.find? (fun e => e.symbol == tok)).map (fun e => e.id) ∧
    (buildIdMap l (strToLower tok) = none →
      lookupPrice gc (buildIdMap l) tok cur = .error (tok ++ " not supported")) ∧
    (∀ id, buildIdMap l (strToLower tok) = some id →
      lookupPrice gc (buildIdMap l) tok cur =
        marketOutcomeToResult cur (gc.coinsMarket cur id)) := by
  refine ⟨buildIdMap_eq_find l tok, fun hnone => ?_, fun id hsome => ?_⟩
  · unfold lookupPrice
    rw [hnone]
  · unfold lookupPrice
    rw [hsome]

/-- C5 witness: with the one-entry lowercase list, the stored symbol
resolves through lookup to the market call on its mapped identifier. -/
theorem buildIdMap_lastwins_lookup_witness :
    buildIdMap [⟨"ethereum", "eth", "Ethereum"⟩] "eth" =
      (([⟨"ethereum", "eth", "Ethereum"⟩] : List CoinListItem).reverse.find?
        (fun e => e.symbol == "eth")).map (fun e => e.id) ∧
    lookupPrice gcEx (buildIdMap [⟨"ethereum", "eth", "Ethereum"⟩]) "eth" "usd" =
      marketOutcomeToResult "usd" (gcEx.coinsMarket "usd" "ethereum") := by
  have h := buildIdMap_lastwins_lookup [⟨"ethereum", "eth", "Ethereum"⟩] gcEx "eth" "usd"
  exact ⟨h.1, h.2.2 "ethereum" rfl⟩

/-- C6: for a ticker that resolves in the cache, a market call failing
with the structured invalid vs_currency payload yields the
unsupported-currency error naming the upper-cased currency; a failure
whose text parses to any other payload value surfaces that value as the
cgErr error; a failure whose text does not parse surfaces the original
error text; and a successful call with an empty result set yields the
no-results-found error. -/
theorem lookupPrice_error_modes (gc : GeckoClient) (im : IdMap) (tok cur id : String)
    (hid : im (strToLower tok) = some id) :
    (gc.coinsMarket cur id = .errParsed "invalid vs_currency" →
      lookupPrice gc im tok cur = .error (strToUpper cur ++ " not supported")) ∧
    (∀ v, gc.coinsMarket cur id = .errParsed v → v ≠ "invalid vs_currency" →
      lookupPrice gc im tok cur = .error v) ∧
    (∀ t, gc.coinsMarket cur id = .errUnparsed t →
      lookupPrice gc im tok cur = .error t) ∧
    (gc.coinsMarket cur id = .ok [] →
      lookupPrice gc im tok cur = .error "no results found") := by
  refine ⟨fun h => ?_, fun v h hv => ?_, fun t h => ?_, fun h => ?_⟩
  · simp [lookupPrice, marketOutcomeToResult, hid, h]
  · simp [lookupPrice, marketOutcomeToResult, hid, h, hv]
  · simp [lookupPrice, marketOutcomeToResult, hid, h]
  · simp [lookupPrice, marketOutcomeToResult, hid, h]

/-- C6 witness: the spec scenario — a currency-rejection payload for
currency xyz produces the unsupported-currency error naming XYZ, not a
raw transport error. -/
theorem lookupPrice_error_modes_witness :
    lookupPrice gcBadCur imEx "eth" "xyz" = .error (strToUpper "xyz" ++ " not supported") :=
  (lookupPrice_error_modes gcBadCur imEx "eth" "xyz" "ethereum" rfl).1 rfl

/-- C7: for a ticker that resolves in the cache, a deadline-exceeded
history failure yields the distinct API-unavailable message; any other
history failure yields the unsupported-asset error naming the ticker; a
record without a market-data section yields the no-data-for-year error;
and a market-data section lacking the lower-cased requested currency key
yields the unsupported-currency error. -/
theorem ifIBought_error_modes (gc : GeckoClient) (im : IdMap) (tok cur : String)
    (yr mo now : Int) (amt : Rat) (id : String)
    (hid : im (strToLower tok) = some id) :
    (gc.coinsIDHistory id (histDate (resolveMonth mo now) yr) = .errDeadline →
      ifIBought gc im tok cur yr mo now amt =
        .error "CoinGecko API connection failed 🤕") ∧
    (∀ t, gc.coinsIDHistory id (histDate (resolveMonth mo now) yr) = .errOther t →
      ifIBought gc im tok cur yr mo now amt = .error (tok ++ " not supported")) ∧
    (∀ data, gc.coinsIDHistory id (histDate (resolveMonth mo now) yr) = .ok data →
      data.marketData = none →
      ifIBought gc im tok cur yr mo now amt =
        .error ("No data available for year " ++ toString yr)) ∧
    (∀ data md, gc.coinsIDHistory id (histDate (resolveMonth mo now) yr) = .ok data →
      data.marketData = some md →
      List.lookup (strToLower cur) md.currentPrice = none →
      ifIBought gc im tok cur yr mo now amt =
        .error (strToLower cur ++ " not supported")) := by
  refine ⟨fun h => ?_, fun t h => ?_, fun data h hmd => ?_, fun data md h hmd hcur => ?_⟩
  · simp [ifIBought, hid, h]
  · simp [ifIBought, hid, h]
  · simp [ifIBought, hid, h, hmd]
  · simp [ifIBought, hid, h, hmd, hcur]

/-- C7 witness: a timed-out history call for a resolved ticker produces
the API-unavailable message. -/
theorem ifIBought_error_modes_witness :
    ifIBought gcDeadline imEx "eth" "usd" 2018 3 7 100 =
      .error "CoinGecko API connection failed 🤕" :=
  (ifIBought_error_modes gcDeadline imEx "eth" "usd" 2018 3 7 100 "ethereum" rfl).1 rfl

/-- C8 counterexample: a snapshot whose all-time-high date string is not
RFC3339 makes templateData.format panic (time.Parse fails and the code
calls panic(err)), and the panic escapes queryMessage — composing the
reply aborts instead of producing the generic fallback, refuting "never
aborts the running process". -/
theorem queryMessage_panics_cex :
    formatTemplate ethItemBadDate "usd" = .error athPanicMsg ∧
    queryMessage gcBadDate imEx "eth" "usd" = .error athPanicMsg :=
  ⟨rfl, rfl⟩

/-- C8 (amended): composing the reply converts a lookup failure to its
error text and renders every snapshot whose all-time-high date parses as
RFC3339 (the fixed template's construction and execution cannot fail, so
the logged generic-fallback branches are unreachable); but a snapshot
whose all-time-high date does not parse as RFC3339 raises a panic in
templateData.format that aborts message composition rather than being
converted to the fallback. -/
theorem queryMessage_panic_characterization (gc : GeckoClient) (im : IdMap)
    (tok cur : String) :
    (∀ e, lookupPrice gc im tok cur = .error e → queryMessage gc im tok cur = .ok e) ∧
    (∀ item, lookupPrice gc im tok cur = .ok item → parseRFC3339 item.athDate = none →
      queryMessage gc im tok cur = .error athPanicMsg) ∧
    (∀ item d, lookupPrice gc im tok cur = .ok item → parseRFC3339 item.athDate = some d →
      ∃ s, queryMessage gc im tok cur = .ok s) := by
  refine ⟨fun e h => ?_, fun item h hpn => ?_, fun item d h hp => ?_⟩
  · simp [queryMessage, h]
  · simp [queryMessage, formatTemplate, h, hpn]
  · unfold queryMessage
    rw [h]
    simp only [formatTemplate, hp]
    exact ⟨_, rfl⟩

/-- C8 witness: a snapshot with a well-formed ATH date composes a reply
without fault. -/
theorem queryMessage_panic_characterization_witness :
    ∃ s, queryMessage gcEx imEx "eth" "usd" = .ok s :=
  (queryMessage_panic_characterization gcEx imEx "eth" "usd").2.2 ethItem
    (2021, 11, 10) rfl rfl

/-- C9 counterexample: the success probability of the trigger over a
uniform 64-bit value is not exactly 1/15: the number of firing values
below 2^64 is 1229782938247303442 = (2^64 + 14)/15, and dividing by
2^64 does not give 1/15 (15 does not divide 2^64). -/
theorem doIt_probability_not_exact :
    ¬ ((((Finset.range (2 ^ 64)).filter (fun v => doIt (some v) = true)).card : Rat)
        / 2 ^ 64 = 1 / 15) := by
  rw [doIt_card]
  norm_num

/-- C9 (amended): the trigger fires exactly on values divisible by both
5 and 3, i.e. by 15; a failed read of the random source yields false;
and the number of firing values among the 2^64 possible 64-bit values is
(2^64 + 14)/15, so the success probability is (2^64 + 14)/(15 * 2^64) —
within 14/(15 * 2^64) of 1/15 but not exactly 1/15. -/
theorem doIt_trigger_characterization :
    (∀ v, doIt (some v) = true ↔ v % 15 = 0) ∧
    doIt none = false ∧
    15 * ((Finset.range (2 ^ 64)).filter (fun v => doIt (some v) = true)).card =
      2 ^ 64 + 14 := by
  refine ⟨doIt_some_iff, rfl, ?_⟩
  rw [doIt_card]
  decide

/-- C10 counterexample: on /whatif 100 eth 2018 xyz (fourth token not an
integer) the handler sends no "Malformed month" message and does not use
month 0 from a failed parse: the month block re-parses the year token
2018 and the single reply is the computed what-if sentence — refuting
"the user receives both the malformed-month message and a computed
reply". -/
theorem whatif_malformed_fourth_arg_cex :
    whatifMonth ["100", "eth", "2018", "xyz"] = ([], 2018) ∧
    whatifHandler gcEx imEx 7 "/whatif 100 eth 2018 xyz" =
      [ifIHadMsg (usdMoney 500) (strToUpper "eth") 2018 (usdMoney 200) (usdMoney 1000)] :=
  ⟨rfl, rfl⟩

/-- C10 (amended): with exactly four arguments the month block re-parses
the third token (the year); since that token already parsed as the year,
the malformed-month branch is unreachable regardless of the fourth
token: no malformed-month message is sent and the computation runs with
month equal to the year value (ifIBought substituting the current
calendar month whenever that value is outside 1..12), so the user
receives exactly the computed what-if reply or its error. -/
theorem whatif_four_args_amended (gc : GeckoClient) (im : IdMap) (now : Int)
    (a t y m4 : String) (amt : Rat) (yr : Int)
    (ha : parseFloatQ a = some amt) (hy : parseInt y = some yr) :
    whatifMonth [a, t, y, m4] = ([], yr) ∧
    whatifReplies gc im now [a, t, y, m4] =
      [match ifIBought gc im t "USD" yr yr now amt with
       | .error e => e
       | .ok (_, newValue, oldPrice) =>
         ifIHadMsg (usdMoney 500) (strToUpper t) yr (usdMoney oldPrice)
           (usdMoney newValue)] := by
  have hm : whatifMonth [a, t, y, m4] = ([], yr) := by
    unfold whatifMonth
    simp [hy]
  refine ⟨hm, ?_⟩
  unfold whatifReplies
  simp only [List.getD_cons_zero, List.getD_cons_succ, ha, hy, hm, List.length_cons,
    List.length_nil]
  norm_num
  cases hif : ifIBought gc im t "USD" yr yr now amt with
  | error e => simp [hif]
  | ok triple => simp [hif]

/-- C10 witness: concrete four-argument run with a non-integer fourth
token. -/
theorem whatif_four_args_amended_witness :
    whatifMonth ["100", "eth", "2018", "zz"] = ([], 2018) ∧
    whatifReplies gcEx imEx 7 ["100", "eth", "2018", "zz"] =
      [match ifIBought gcEx imEx "eth" "USD" 2018 2018 7 100 with
       | .error e => e
       | .ok (_, newValue, oldPrice) =>
         ifIHadMsg (usdMoney 500) (strToUpper "eth") 2018 (usdMoney oldPrice)
           (usdMoney newValue)] :=
  whatif_four_args_amended gcEx imEx 7 "100" "eth" "2018" "zz" 100 2018 rfl rfl

end CryptoStonks

end RatReducible
